import Mathlib

/-!
Verification of the peer-to-peer file-drop service (`ipnlocal` peerapi).

Go strings are modelled as byte lists (`GoStr`), Go runes as natural
numbers (code points), the staging directory as an association list from
entry name to file bytes, and wall-clock time as a natural number of
nanoseconds.  Pure Go functions become Lean functions; the HTTP handler
becomes a state-passing function whose fallible OS calls (create, close,
body read, directory open) are driven by explicit fault flags.
-/

/-- Byte strings: a Go `string` is a sequence of bytes (each < 256). -/
abbrev GoStr := List Nat

/-- UTF-8 encoding of one rune (code point), as in Go's `utf8.EncodeRune`
restricted to code points that are actually encodable. -/
def utf8EncodeRune (c : Nat) : List Nat :=
  if c < 128 then [c]
  else if c < 2048 then [192 + c / 64, 128 + c % 64]
  else if c < 65536 then [224 + c / 4096, 128 + (c / 64) % 64, 128 + c % 64]
  else [240 + c / 262144, 128 + (c / 4096) % 64, 128 + (c / 64) % 64, 128 + c % 64]

/-- Bytes of a Lean string literal, UTF-8 encoded; used only to transcribe the
Go source's string literals into `GoStr`. -/
def gs (s : String) : GoStr :=
  (s.toList.map Char.toNat).flatMap utf8EncodeRune

/-- Whether a byte is a UTF-8 continuation byte (`0x80..0xBF`). -/
def isContByte (b : Nat) : Bool := 128 ≤ b && b ≤ 191

/-- Decode a byte string as UTF-8, returning the rune sequence, or `none` when
the bytes are not valid UTF-8.  Follows Go's `unicode/utf8` acceptance table:
overlong encodings, surrogates (U+D800..U+DFFF) and code points above
U+10FFFF are rejected.  `utf8.ValidString s` is exactly
`(utf8Decode s).isSome`, and `for _, r := range s` on a valid string yields
exactly the decoded runes. -/
def utf8Decode : List Nat → Option (List Nat)
  | [] => some []
  | b :: rest =>
    if b ≤ 127 then
      (utf8Decode rest).map (b :: ·)
    else if 194 ≤ b && b ≤ 223 then
      match rest with
      | b1 :: rest' =>
        if isContByte b1 then
          (utf8Decode rest').map (((b - 192) * 64 + (b1 - 128)) :: ·)
        else none
      | [] => none
    else if 224 ≤ b && b ≤ 239 then
      match rest with
      | b1 :: b2 :: rest' =>
        let lo1 := if b == 224 then 160 else 128
        let hi1 := if b == 237 then 159 else 191
        if lo1 ≤ b1 && b1 ≤ hi1 && isContByte b2 then
          (utf8Decode rest').map (((b - 224) * 4096 + (b1 - 128) * 64 + (b2 - 128)) :: ·)
        else none
      | _ => none
    else if 240 ≤ b && b ≤ 244 then
      match rest with
      | b1 :: b2 :: b3 :: rest' =>
        let lo1 := if b == 240 then 144 else 128
        let hi1 := if b == 244 then 143 else 191
        if lo1 ≤ b1 && b1 ≤ hi1 && isContByte b2 && isContByte b3 then
          (utf8Decode rest').map
            (((b - 240) * 262144 + (b1 - 128) * 4096 + (b2 - 128) * 64 + (b3 - 128)) :: ·)
        else none
      | _ => none
    else none

/-- Go `unicode.IsSpace`: the Unicode White_Space property (a fixed, finite
rune set). -/
def goIsSpace (r : Nat) : Bool :=
  r == 9 || r == 10 || r == 11 || r == 12 || r == 13 || r == 32 ||
  r == 133 || r == 160 || r == 5760 || (8192 ≤ r && r ≤ 8202) ||
  r == 8232 || r == 8233 || r == 8239 || r == 8287 || r == 12288

/-- Go `strings.TrimSpace` at the rune level: drop leading and trailing
white-space runes. -/
def trimSpaceRunes (rs : List Nat) : List Nat :=
  ((rs.dropWhile goIsSpace).reverse.dropWhile goIsSpace).reverse

/-- The element-processing pass of Go `path.Clean`: `acc` is the stack of kept
elements (most recent first).  Empty and `.` elements vanish; `..` pops a
poppable element, is dropped at the root of a rooted path, and is kept at the
head of a relative path. -/
def cleanParts (rooted : Bool) (acc : List GoStr) : List GoStr → List GoStr
  | [] => acc.reverse
  | p :: ps =>
    if p = [] ∨ p = [46] then cleanParts rooted acc ps
    else if p = [46, 46] then
      match acc with
      | [] => if rooted then cleanParts rooted [] ps else cleanParts rooted [p] ps
      | q :: acc' =>
        if q = [46, 46] then cleanParts rooted (p :: acc) ps
        else cleanParts rooted acc' ps
    else cleanParts rooted (p :: acc) ps

/-- Go `path.Clean`: lexical canonicalization of a slash-separated path
(collapse repeated slashes, eliminate `.` and resolvable `..`, drop a
trailing slash, map the empty path to `.`). -/
def pathClean (p : GoStr) : GoStr :=
  if p = [] then [46]
  else
    let rooted := p.head? = some 47
    let parts := cleanParts rooted [] (p.splitOn 47)
    if rooted then
      if parts = [] then [47] else 47 :: List.intercalate [47] parts
    else
      if parts = [] then [46] else List.intercalate [47] parts

/-- Go `validFilenameRune`: rejects `/` and the Windows-reserved punctuation,
then requires printability.  The printability predicate (Go
`unicode.IsPrint`, whose tables live outside this repository) is a
parameter; every theorem below holds for an arbitrary such predicate. -/
def validFilenameRune (isPrint : Nat → Bool) (r : Nat) : Bool :=
  if r == 47 then false
  else if r == 92 || r == 58 || r == 42 || r == 34 || r == 60 || r == 62 || r == 124 then
    false
  else isPrint r

/-- Go `filepath.Join` (Unix separator): skip leading empty elements, then
join with `/` and `Clean` the result. -/
def filepathJoin (a b : GoStr) : GoStr :=
  if a = [] then (if b = [] then [] else pathClean b)
  else pathClean (a ++ 47 :: b)

/-- The fixed staging suffix `".partial"`. -/
def partSuffix : GoStr := gs ".partial"

/-- Go `diskPath`: the filename gate.  Returns the join of the staging root
and the base name when the name is accepted, `none` otherwise.  It is a pure
function of its arguments (the Go function touches no state).  The
`strings.TrimSpace` check is stated at the rune level: at that point the name
is known to be valid UTF-8, and `TrimSpace` returns the byte string unchanged
exactly when rune-level trimming leaves the decoded rune sequence
unchanged. -/
def diskPath (isPrint : Nat → Bool) (rootDir baseName : GoStr) : Option GoStr :=
  match utf8Decode baseName with
  | none => none
  | some rs =>
    if trimSpaceRunes rs ≠ rs then none
    else if 255 < baseName.length then none
    else
      let clean := pathClean baseName
      if clean ≠ baseName ∨ clean = [46] ∨ clean = [46, 46] ∨ partSuffix.isSuffixOf clean then
        none
      else if rs.all (validFilenameRune isPrint) then some (filepathJoin rootDir baseName)
      else none

/-- ASCII printability; a concrete instantiation of the `isPrint` parameter,
used by the concrete witnesses below. -/
def asciiPrint (r : Nat) : Bool := 32 ≤ r && r < 127

/-- One bit-step of the reflected CRC-32 computation with the IEEE
polynomial `0xEDB88320`, as in Go `hash/crc32`. -/
def crc32Step (crc : Nat) : Nat :=
  if crc % 2 = 1 then (crc / 2) ^^^ 0xEDB88320 else crc / 2

/-- Fold one byte into the CRC state: xor it in, then eight bit-steps. -/
def crc32Down (crc b : Nat) : Nat := Nat.iterate crc32Step 8 (crc ^^^ b)

/-- Go `crc32.ChecksumIEEE`. -/
def crc32IEEE (data : List Nat) : Nat :=
  (data.foldl crc32Down 0xFFFFFFFF) ^^^ 0xFFFFFFFF

/-- The candidate port Go `listen` tries on attempt `k`: take the last three
bytes of the address's 16-byte form (`a16[13:]`), add `k` to the first with
uint8 wrap-around (`hashData[0] += try`), and compute
`(32 << 10) | uint16(crc32.ChecksumIEEE(hashData))`. -/
def tryPort (a16 : List Nat) (k : Nat) : Nat :=
  let hashData :=
    match a16.drop 13 with
    | [] => []
    | h :: t => ((h + k) % 256) :: t
  32768 ||| (crc32IEEE hashData % 65536)

/-- The bind loop of Go `listen`: try the candidate ports for the attempts
still pending, in order; a successful bind returns that port, and exhausting
the attempts falls back to the OS-assigned ephemeral port, modelled as port
`0` (Go passes the port string `"0"` to the final `Listen`).  `bindOk` says
whether binding a given port succeeds. -/
def listenLoop (bindOk : Nat → Bool) (a16 : List Nat) : List Nat → Nat
  | [] => 0
  | k :: ks => if bindOk (tryPort a16 k) then tryPort a16 k else listenLoop bindOk a16 ks

/-- Go `listen`'s port choice: five attempts (`try := 0..4`), then the
ephemeral fallback. -/
def listenPort (bindOk : Nat → Bool) (a16 : List Nat) : Nat :=
  listenLoop bindOk a16 [0, 1, 2, 3, 4]

/-- Go `html.EscapeString` on one character (`&`, `'`, `<`, `>`, `"`). -/
def htmlEscapeChar (c : Char) : List Char :=
  if c.toNat = 38 then "&amp;".toList
  else if c.toNat = 39 then "&#39;".toList
  else if c.toNat = 60 then "&lt;".toList
  else if c.toNat = 62 then "&gt;".toList
  else if c.toNat = 34 then "&#34;".toList
  else [c]

/-- Go `html.EscapeString`. -/
def htmlEscapeStr (s : List Char) : List Char := s.flatMap htmlEscapeChar

/-- The HTML greeting `ServeHTTP` writes for every path outside `/v0/put/`,
as the character stream of its two `Fprintf` calls.  The peer's display name
and the local node's computed name go through `html.EscapeString`; the
peer's address string (`h.remoteAddr.IP`, always a zone-less IP literal) is
interpolated as is; the owner marker is appended exactly when `isSelf`.
This route computes a string and mutates nothing. -/
def greeting (who ipStr name : List Char) (isSelf : Bool) : List Char :=
  "<html>\n<meta name=\"viewport\" content=\"width=device-width, initial-scale=1\">\n<body>\n<h1>Hello, ".toList ++
  htmlEscapeStr who ++ " (".toList ++ ipStr ++
  ")</h1>\nThis is my Tailscale device. Your device is ".toList ++
  htmlEscapeStr name ++ ".\n".toList ++
  (if isSelf then "<p>You are the owner of this node.\n".toList else [])

/-- Modelled from the spec: the greeting with every interpolated value
HTML-escaped ("All interpolated values must be HTML-escaped"), including the
peer's address. -/
def greetingSpec (who ipStr name : List Char) (isSelf : Bool) : List Char :=
  "<html>\n<meta name=\"viewport\" content=\"width=device-width, initial-scale=1\">\n<body>\n<h1>Hello, ".toList ++
  htmlEscapeStr who ++ " (".toList ++ htmlEscapeStr ipStr ++
  ")</h1>\nThis is my Tailscale device. Your device is ".toList ++
  htmlEscapeStr name ++ ".\n".toList ++
  (if isSelf then "<p>You are the owner of this node.\n".toList else [])

/-- Characters that occur in the string form of a zone-less overlay IP
address (`netaddr.IP.String` after `FromStdAddr` with an empty zone): decimal
digits, lowercase hex digits, `.` and `:`. -/
def ipChar (c : Char) : Bool :=
  (48 ≤ c.toNat && c.toNat ≤ 57) || (97 ≤ c.toNat && c.toNat ≤ 102) ||
  c.toNat = 46 || c.toNat = 58

/-- One entry of the staging directory: name, file bytes, and whether the
entry is a regular file. -/
structure DirEntry where
  name : GoStr
  content : List Nat
  regular : Bool
deriving DecidableEq

/-- The staging root's directory listing, keyed by entry name.  Full paths
under the fixed staging root are abstracted to the base-name keys of the
entries the root holds. -/
abbrev Dir := List DirEntry

def lookupEntry (d : Dir) (nm : GoStr) : Option DirEntry :=
  d.find? (fun e => decide (e.name = nm))

def removeEntry (d : Dir) (nm : GoStr) : Dir :=
  d.filter (fun e => decide (e.name ≠ nm))

/-- `os.Create`: truncate-or-create the named regular file. -/
def createEntry (d : Dir) (nm : GoStr) : Dir :=
  ⟨nm, [], true⟩ :: removeEntry d nm

/-- Overwrite the content of the entry named `nm`. -/
def setContent (d : Dir) (nm : GoStr) (bs : List Nat) : Dir :=
  d.map (fun e => if e.name = nm then { e with content := bs } else e)

/-- The store-visible state: the staging directory plus the negative-empty
cache (`knownEmpty`). -/
structure StoreState where
  dir : Dir
  knownEmpty : Bool
deriving DecidableEq

/-- The server configuration a request sees: the `isSelf` judgement made at
accept time, the file-sharing capability, the staging root and the
direct-file-mode flag. -/
structure PutEnv where
  isSelf : Bool
  capFileSharing : Bool
  rootDir : GoStr
  directFileMode : Bool
deriving DecidableEq

/-- Externally visible calls made by the handler and the upload object.  The
three `notify*` constructors are all calls to the backend's
`sendFileNotify`, tagged by call site: progress (from `incomingFile.Write`),
done (from `markAndNotifyDone`, direct mode only) and the final notify after
a 200.  `register a` is `registerIncomingFile(inFile, a)`. -/
inductive Ev where
  | register (active : Bool)
  | notifyProgress
  | notifyDone
  | notifyFinal
deriving DecidableEq

/-- The mutable state of one `incomingFile` during `io.Copy`, together with
the bytes already written to the destination file. -/
structure CopySt where
  content : List Nat
  copied : Nat
  lastNotify : Nat
deriving DecidableEq

/-- `time.Second` in nanoseconds. -/
def oneSecond : Nat := 1000000000

/-- `incomingFile.Write` for one chunk `data` arriving at wall-clock `now`
(nanoseconds; `0` is the zero `time.Time`): forward the bytes to the file,
bump the copied counter, and publish a progress notification when the last
one is zero or more than a second old. -/
def writeChunk (st : CopySt) (data : List Nat) (now : Nat) : CopySt × List Ev :=
  let content := st.content ++ data
  if 0 < data.length then
    if st.lastNotify = 0 ∨ oneSecond < now - st.lastNotify then
      (⟨content, st.copied + data.length, now⟩, [Ev.notifyProgress])
    else (⟨content, st.copied + data.length, st.lastNotify⟩, [])
  else (⟨content, st.copied, st.lastNotify⟩, [])

/-- `io.Copy(inFile, r.Body)` over the request body's chunk trace. -/
def copyBody (st : CopySt) : List (List Nat × Nat) → CopySt × List Ev
  | [] => (st, [])
  | (data, now) :: rest =>
    let step := writeChunk st data now
    let tail := copyBody step.1 rest
    (tail.1, step.2 ++ tail.2)

/-- A `PUT` request as the handler observes it: method, the escaped URL path
(`r.URL.EscapedPath()`), the declared `Content-Length` (`-1` when unknown),
the body's chunk trace (data bytes paired with the wall-clock time of each
write), and whether reading the body fails after the trace (an `io.Copy`
error). -/
structure PutReq where
  method : GoStr
  escapedPath : GoStr
  contentLength : Int
  chunks : List (List Nat × Nat)
  readErr : Bool
deriving DecidableEq

/-- Fault injection for the fallible filesystem calls of the upload path. -/
structure PutFaults where
  createErr : Bool
  closeErr : Bool
deriving DecidableEq

/-- The handler's observable outcome: HTTP status, response body, the store
state after the request, and the trace of external calls. -/
structure PutResult where
  status : Nat
  body : GoStr
  state : StoreState
  events : List Ev
deriving DecidableEq

/-- Go `strings.TrimPrefix`. -/
def trimPfx (s p : GoStr) : GoStr :=
  if p.isPrefixOf s then s.drop p.length else s

/-- Hex digit value of a byte, as in `net/url`'s `unhex`. -/
def hexVal (b : Nat) : Option Nat :=
  if 48 ≤ b ∧ b ≤ 57 then some (b - 48)
  else if 97 ≤ b ∧ b ≤ 102 then some (b - 87)
  else if 65 ≤ b ∧ b ≤ 70 then some (b - 55)
  else none

/-- Go `url.PathUnescape`: decode `%XX` escapes, failing on a malformed
escape; `+` stays `+`. -/
def pathUnescape : GoStr → Option GoStr
  | [] => some []
  | 37 :: a :: b :: rest =>
    match hexVal a, hexVal b with
    | some ha, some hb => (pathUnescape rest).map ((ha * 16 + hb) :: ·)
    | _, _ => none
  | 37 :: _ => none
  | c :: rest => (pathUnescape rest).map (c :: ·)

/-- The validation half of Go `handlePeerPut`, in source order: owner check,
capability check, method check, root check, `/v0/put/` strip, empty and
slash checks on the still-escaped suffix, percent-decoding, and the filename
gate.  Returns the rejection's status and body, or the accepted base
name. -/
def putCheck (isPrint : Nat → Bool) (env : PutEnv) (req : PutReq) :
    Except (Nat × GoStr) GoStr :=
  if ¬ env.isSelf then .error (403, gs "not owner")
  else if ¬ env.capFileSharing then
    .error (403, gs "file sharing not enabled by Tailscale admin")
  else if req.method ≠ gs "PUT" then .error (405, gs "expected method PUT")
  else if env.rootDir = [] then .error (500, gs "no rootdir")
  else
    let suffix := trimPfx req.escapedPath (gs "/v0/put/")
    if suffix = req.escapedPath then .error (500, gs "misconfigured internals")
    else if suffix = [] then .error (400, gs "empty filename")
    else if suffix.contains 47 then .error (400, gs "directories not supported")
    else
      match pathUnescape suffix with
      | none => .error (400, gs "bad path encoding")
      | some baseName =>
        match diskPath isPrint env.rootDir baseName with
        | none => .error (400, gs "bad filename")
        | some _ => .ok baseName

/-- The key under which an upload lands in the staging directory: the base
name, with the partial suffix appended in direct mode. -/
def putDest (env : PutEnv) (baseName : GoStr) : GoStr :=
  if env.directFileMode then baseName ++ partSuffix else baseName

/-- The upload half of Go `handlePeerPut`: create the destination
(truncating), copy a body with nonzero declared length through an
`incomingFile`, close, then notify and clear the negative-empty cache.  A
create, body-read or close failure responds 500, and the deferred cleanup
removes the destination whenever success was not reached; the deferred
`registerIncomingFile(inFile, false)` runs on every exit once a body was
registered.  The response body of a 200 is `"\x7b\x7d\n"`. -/
def putUpload (env : PutEnv) (fl : PutFaults) (req : PutReq) (st : StoreState)
    (baseName : GoStr) : PutResult :=
  let dst := putDest env baseName
  if fl.createErr then ⟨500, gs "create error", st, []⟩
  else
    let dir1 := createEntry st.dir dst
    if req.contentLength ≠ 0 then
      let cres := copyBody ⟨[], 0, 0⟩ req.chunks
      let dir2 := setContent dir1 dst cres.1.content
      if req.readErr then
        ⟨500, gs "read error", ⟨removeEntry dir2 dst, st.knownEmpty⟩,
          Ev.register true :: cres.2 ++ [Ev.register false]⟩
      else if fl.closeErr then
        ⟨500, gs "close error", ⟨removeEntry dir2 dst, st.knownEmpty⟩,
          Ev.register true :: cres.2 ++ [Ev.register false]⟩
      else
        ⟨200, [123, 125, 10], ⟨dir2, false⟩,
          Ev.register true :: cres.2 ++
            (if env.directFileMode then [Ev.notifyDone] else []) ++
            [Ev.notifyFinal, Ev.register false]⟩
    else
      if fl.closeErr then ⟨500, gs "close error", ⟨removeEntry dir1 dst, st.knownEmpty⟩, []⟩
      else ⟨200, [123, 125, 10], ⟨dir1, false⟩, [Ev.notifyFinal]⟩

/-- Go `handlePeerPut`: validation, then the upload path. -/
def handlePeerPut (isPrint : Nat → Bool) (env : PutEnv) (fl : PutFaults) (req : PutReq)
    (st : StoreState) : PutResult :=
  match putCheck isPrint env req with
  | .error e => ⟨e.1, e.2, st, []⟩
  | .ok baseName => putUpload env fl req st baseName

/-- Go `OpenFile`: returns the readable content and its stat size. -/
def OpenFile (isPrint : Nat → Bool) (env : PutEnv) (st : StoreState) (baseName : GoStr) :
    Except GoStr (List Nat × Nat) :=
  if env.rootDir = [] then .error (gs "peerapi disabled; no storage configured")
  else if env.directFileMode then .error (gs "opens not allowed in direct mode")
  else
    match diskPath isPrint env.rootDir baseName with
    | none => .error (gs "bad filename")
    | some _ =>
      match lookupEntry st.dir baseName with
      | none => .error (gs "open: no such file")
      | some e => .ok (e.content, e.content.length)

/-- Go `DeleteFile`.  `os.Remove` of an absent name fails with `IsNotExist`,
which the source treats as success; the Windows-only backoff loop retries
the same removal and is invisible in this filesystem model. -/
def DeleteFile (isPrint : Nat → Bool) (env : PutEnv) (st : StoreState) (baseName : GoStr) :
    Except GoStr Unit × StoreState :=
  if env.rootDir = [] then (.error (gs "peerapi disabled; no storage configured"), st)
  else if env.directFileMode then (.error (gs "deletes not allowed in direct mode"), st)
  else
    match diskPath isPrint env.rootDir baseName with
    | none => (.error (gs "bad filename"), st)
    | some _ =>
      match lookupEntry st.dir baseName with
      | none => (.ok (), st)
      | some _ => (.ok (), ⟨removeEntry st.dir baseName, st.knownEmpty⟩)

/-- Whether a directory entry counts as a waiting file: a regular file whose
name does not end in the partial suffix (the scan skips `.partial` names
first, then requires a regular file). -/
def waitingEntry (e : DirEntry) : Bool :=
  !(partSuffix.isSuffixOf e.name) && e.regular

/-- Go `hasFilesWaiting`: the fast paths (no root, direct mode, negative
cache), an error opening the root (`openErr`), and otherwise the directory
scan, which returns true at the first waiting file and sets the
negative-empty cache when it reaches the end without finding one. -/
def hasFilesWaiting (env : PutEnv) (openErr : Bool) (st : StoreState) : Bool × StoreState :=
  if env.rootDir = [] ∨ env.directFileMode then (false, st)
  else if st.knownEmpty then (false, st)
  else if openErr then (false, st)
  else if st.dir.any waitingEntry then (true, st)
  else (false, ⟨st.dir, true⟩)

deriving instance DecidableEq for Except

example : pathClean (gs "a/../b") = gs "b" := by decide

example : pathClean (gs "a/..") = gs "." := by decide

example : pathClean [] = [46] := by decide

example : pathClean (gs "/..") = gs "/" := by decide

example : pathClean (gs "../../a") = gs "../../a" := by decide

example : pathClean (gs "a//b/./c/") = gs "a/b/c" := by decide

example : (diskPath (fun r => 32 ≤ r && r < 127) (gs "root") (gs "hello.txt")) =
    some (gs "root/hello.txt") := by decide

example : (diskPath (fun r => 32 ≤ r && r < 127) (gs "root") (gs "..")) = none := by decide

example : (diskPath (fun r => 32 ≤ r && r < 127) (gs "root") (gs "a/b")) = none := by decide

example : (diskPath (fun r => 32 ≤ r && r < 127) (gs "root") (gs "x.partial")) = none := by
  decide

example : (diskPath (fun r => 32 ≤ r && r < 127) (gs "root") (gs " x")) = none := by decide

example : (diskPath (fun r => 32 ≤ r && r < 127) (gs "root") [255, 255]) = none := by decide

/-- Claim C1: the filename gate `diskPath` accepts a peer-supplied base name
`n` iff `n` is valid UTF-8, trimming whitespace leaves it unchanged, its byte
length is between 1 and 255, path-canonicalization leaves it unchanged, it is
neither `.` nor `..`, it does not end in `".partial"`, and every rune is
printable and outside the reject set (the reject set is folded into
`validFilenameRune`); on acceptance it returns the join of the staging root
and `n`.  `diskPath` is a pure function: it touches no filesystem state. -/
theorem C1_filename_gate (isPrint : Nat → Bool) (rootDir n : GoStr) :
    ((∃ p, diskPath isPrint rootDir n = some p) ↔
      ∃ rs, utf8Decode n = some rs ∧ trimSpaceRunes rs = rs ∧
        1 ≤ n.length ∧ n.length ≤ 255 ∧ pathClean n = n ∧
        n ≠ [46] ∧ n ≠ [46, 46] ∧ partSuffix.isSuffixOf n = false ∧
        rs.all (validFilenameRune isPrint) = true) ∧
    (∀ p, diskPath isPrint rootDir n = some p → p = filepathJoin rootDir n) := by
  constructor
  · cases hd : utf8Decode n with
    | none =>
      simp only [diskPath, hd]
      constructor
      · rintro ⟨p, hp⟩; cases hp
      · rintro ⟨rs, hrs, -⟩; cases hrs
    | some rs =>
      simp only [diskPath, hd]
      split_ifs with h1 h2 h3 h4
      · refine iff_of_false (by rintro ⟨p, hp⟩; cases hp) ?_
        rintro ⟨rs', hrs', htrim, -⟩
        injection hrs' with h
        exact h1 (h ▸ htrim)
      · refine iff_of_false (by rintro ⟨p, hp⟩; cases hp) ?_
        rintro ⟨rs', -, -, -, hlen, -⟩
        omega
      · refine iff_of_false (by rintro ⟨p, hp⟩; cases hp) ?_
        rintro ⟨rs', -, -, -, -, hclean, hdot, hdotdot, hsuf, -⟩
        rcases h3 with h | h | h | h
        · exact h hclean
        · exact hdot (hclean ▸ h)
        · exact hdotdot (hclean ▸ h)
        · rw [hclean, hsuf] at h; cases h
      · push_neg at h3
        obtain ⟨hclean, hdot, hdotdot, hsuf⟩ := h3
        refine iff_of_true ⟨_, rfl⟩ ⟨rs, rfl, not_not.mp h1, ?_, by omega, hclean, ?_, ?_, ?_, h4⟩
        · rcases List.eq_nil_or_concat n with rfl | -
          · rw [show pathClean [] = [46] from rfl] at hclean; cases hclean
          · have : n ≠ [] := by
              rintro rfl
              rw [show pathClean [] = [46] from rfl] at hclean; cases hclean
            have := List.length_pos.mpr this
            omega
        · exact fun h => hdot (hclean.trans h)
        · exact fun h => hdotdot (hclean.trans h)
        · rw [hclean] at hsuf
          exact Bool.not_eq_true _ ▸ (by simpa using hsuf)
      · refine iff_of_false (by rintro ⟨p, hp⟩; cases hp) ?_
        rintro ⟨rs', hrs', -, -, -, -, -, -, -, hall⟩
        injection hrs' with h
        exact h4 (h ▸ hall)
  · intro p hp
    cases hd : utf8Decode n with
    | none => simp only [diskPath, hd] at hp; cases hp
    | some rs =>
      simp only [diskPath, hd] at hp
      split_ifs at hp
      all_goals injection hp with h
      all_goals exact h.symm

/-- Closed witness for Claim C1 at a concrete input. -/
theorem C1_filename_gate_witness :
    ∃ p, diskPath asciiPrint (gs "root") (gs "hello.txt") = some p ∧
      p = filepathJoin (gs "root") (gs "hello.txt") := by
  obtain ⟨p, hp⟩ := (C1_filename_gate asciiPrint (gs "root") (gs "hello.txt")).1.mpr
    ⟨gs "hello.txt", by decide, by decide, by decide, by decide, by decide, by decide,
      by decide, by decide, by decide⟩
  exact ⟨p, hp, (C1_filename_gate asciiPrint (gs "root") (gs "hello.txt")).2 p hp⟩

/-- Setting bit 15 keeps a number at or above `0x8000`. -/
lemma le_lor_32768 (x : Nat) : 32768 ≤ 32768 ||| x := by
  by_contra h
  push_neg at h
  have hlt : 32768 ||| x < 2 ^ 15 := by norm_num at h ⊢; omega
  have ht : Nat.testBit (32768 ||| x) 15 = false := Nat.testBit_eq_false_of_lt hlt
  rw [Nat.testBit_lor] at ht
  rw [show Nat.testBit 32768 15 = true by decide] at ht
  simp at ht

/-- Claim C4: on attempt `k` the listener's candidate port is
`0x8000 ||| (crc32IEEE of the last three bytes of the 16-byte address, with
k added to the first byte mod 256) % 0x10000`; the first successfully bound
candidate is used; every candidate is at least `0x8000`; and five failed
bind attempts fall back to the OS-assigned ephemeral port (the port string
`"0"`, modelled as port `0`). -/
theorem C4_port_derivation (bindOk : Nat → Bool) (pre : List Nat) (b0 b1 b2 : Nat)
    (hpre : pre.length = 13) :
    (∀ k, tryPort (pre ++ [b0, b1, b2]) k =
      32768 ||| (crc32IEEE [(b0 + k) % 256, b1, b2] % 65536)) ∧
    (∀ a16 k, 32768 ≤ tryPort a16 k) ∧
    (∀ k, k < 5 → bindOk (tryPort (pre ++ [b0, b1, b2]) k) = true →
      (∀ j, j < k → bindOk (tryPort (pre ++ [b0, b1, b2]) j) = false) →
      listenPort bindOk (pre ++ [b0, b1, b2]) = tryPort (pre ++ [b0, b1, b2]) k) ∧
    ((∀ k, k < 5 → bindOk (tryPort (pre ++ [b0, b1, b2]) k) = false) →
      listenPort bindOk (pre ++ [b0, b1, b2]) = 0) := by
  have hdrop : (pre ++ [b0, b1, b2]).drop 13 = [b0, b1, b2] := by
    rw [← hpre, List.drop_left]
  refine ⟨?_, ?_, ?_, ?_⟩
  · intro k
    simp only [tryPort, hdrop]
  · intro a16 k
    exact le_lor_32768 _
  · intro k hk hbind hprev
    interval_cases k <;>
      simp_all [listenPort, listenLoop]
  · intro hall
    have h0 := hall 0 (by omega)
    have h1 := hall 1 (by omega)
    have h2 := hall 2 (by omega)
    have h3 := hall 3 (by omega)
    have h4 := hall 4 (by omega)
    simp [listenPort, listenLoop, h0, h1, h2, h3, h4]

/-- Closed witness for Claim C4: the spec's own example, an overlay address
whose low three bytes are `01 02 03`, with no candidate bindable. -/
theorem C4_port_derivation_witness :
    tryPort (List.replicate 13 0 ++ [1, 2, 3]) 0 =
      32768 ||| (crc32IEEE [1, 2, 3] % 65536) ∧
    32768 ≤ tryPort (List.replicate 13 0 ++ [1, 2, 3]) 0 ∧
    listenPort (fun _ => false) (List.replicate 13 0 ++ [1, 2, 3]) = 0 := by
  have h := C4_port_derivation (fun _ => false) (List.replicate 13 0) 1 2 3 (by decide)
  exact ⟨by simpa using h.1 0, h.2.1 _ 0, h.2.2.2 (fun k _ => rfl)⟩

/-- Escaping fixes every string made of IP-literal characters. -/
lemma htmlEscapeStr_ipChars (s : List Char) (h : ∀ c ∈ s, ipChar c = true) :
    htmlEscapeStr s = s := by
  induction s with
  | nil => rfl
  | cons c cs ih =>
    have hc : ipChar c = true := h c (by simp)
    have hone : htmlEscapeChar c = [c] := by
      simp only [ipChar, Bool.or_eq_true, Bool.and_eq_true, decide_eq_true_eq] at hc
      unfold htmlEscapeChar
      split_ifs with h1 h2 h3 h4 h5 <;> first | rfl | omega
    simp only [htmlEscapeStr, List.flatMap_cons, hone, List.singleton_append, List.cons.injEq,
      true_and]
    exact ih fun d hd => h d (by simp [hd])

set_option maxRecDepth 20000 in
/-- Claim C9: for every non-`/v0/put/` request the response is the HTML
greeting in which each interpolated value appears HTML-escaped — the display
name and computed name through `html.EscapeString`, the peer address (an IP
literal, on which escaping is the identity) as is — the owner marker appears
iff `isSelf`, and the display name `"<Alice>"` shows up as `&lt;Alice&gt;`
with no raw `<Alice>` substring.  The greeting is a pure function of the
handler's fields: the route mutates no server or store state. -/
theorem C9_greeting_escaped (who ipStr name : List Char) (isSelf : Bool)
    (hip : ∀ c ∈ ipStr, ipChar c = true) :
    greeting who ipStr name isSelf = greetingSpec who ipStr name isSelf ∧
    (greeting who ipStr name true =
      greeting who ipStr name false ++ "<p>You are the owner of this node.\n".toList) ∧
    ("&lt;Alice&gt;".toList <:+:
      greeting "<Alice>".toList "100.64.1.2".toList "mynode".toList isSelf) ∧
    ¬ ("<Alice>".toList <:+:
      greeting "<Alice>".toList "100.64.1.2".toList "mynode".toList isSelf) := by
  refine ⟨?_, ?_, ?_, ?_⟩
  · unfold greeting greetingSpec
    rw [htmlEscapeStr_ipChars ipStr hip]
  · simp [greeting]
  · cases isSelf <;> decide
  · cases isSelf <;> decide

/-- Closed witness for Claim C9 at a concrete peer. -/
theorem C9_greeting_escaped_witness :
    greeting "<Alice>".toList "100.64.1.2".toList "mynode".toList true =
      greetingSpec "<Alice>".toList "100.64.1.2".toList "mynode".toList true ∧
    "&lt;Alice&gt;".toList <:+:
      greeting "<Alice>".toList "100.64.1.2".toList "mynode".toList true := by
  have h := C9_greeting_escaped "<Alice>".toList "100.64.1.2".toList "mynode".toList true
    (by decide)
  exact ⟨h.1, h.2.2.1⟩

/-- Removing a name makes it unfindable. -/
lemma lookupEntry_removeEntry (d : Dir) (nm : GoStr) :
    lookupEntry (removeEntry d nm) nm = none := by
  rw [lookupEntry, List.find?_eq_none]
  intro e he
  have := (List.mem_filter.mp he).2
  simpa using this

/-- A freshly created entry is found, empty and regular. -/
lemma lookupEntry_createEntry (d : Dir) (nm : GoStr) :
    lookupEntry (createEntry d nm) nm = some ⟨nm, [], true⟩ := by
  rw [lookupEntry, createEntry, List.find?_cons_of_pos _ (by simp)]

/-- Creating an entry and then overwriting its content is found with that
content. -/
lemma lookupEntry_create_set (d : Dir) (nm : GoStr) (bs : List Nat) :
    lookupEntry (setContent (createEntry d nm) nm bs) nm = some ⟨nm, bs, true⟩ := by
  rw [createEntry, setContent, List.map_cons]
  rw [lookupEntry, List.find?_cons_of_pos _ (by simp)]
  simp

/-- `incomingFile.Write` publishes only progress notifications. -/
lemma writeChunk_events (st : CopySt) (data : List Nat) (now : Nat) :
    ∀ e ∈ (writeChunk st data now).2, e = Ev.notifyProgress := by
  unfold writeChunk
  split_ifs <;> simp

/-- `io.Copy` publishes only progress notifications. -/
lemma copyBody_events (chunks : List (List Nat × Nat)) :
    ∀ st, ∀ e ∈ (copyBody st chunks).2, e = Ev.notifyProgress := by
  induction chunks with
  | nil => intro st e he; simp [copyBody] at he
  | cons c rest ih =>
    intro st e he
    obtain ⟨data, now⟩ := c
    simp only [copyBody, List.mem_append] at he
    rcases he with he | he
    · exact writeChunk_events _ _ _ e he
    · exact ih _ e he

/-- One chunk write appends its data to the file. -/
lemma writeChunk_content (st : CopySt) (data : List Nat) (now : Nat) :
    (writeChunk st data now).1.content = st.content ++ data := by
  unfold writeChunk
  split_ifs <;> rfl

/-- `io.Copy` writes the concatenation of the chunks. -/
lemma copyBody_content (chunks : List (List Nat × Nat)) :
    ∀ st, (copyBody st chunks).1.content = st.content ++ chunks.flatMap Prod.fst := by
  induction chunks with
  | nil => intro st; simp [copyBody]
  | cons c rest ih =>
    intro st
    obtain ⟨data, now⟩ := c
    simp only [copyBody, List.flatMap_cons]
    rw [ih, writeChunk_content, List.append_assoc]

/-- Every rejection of the validation half carries one of the four error
statuses; in particular it is never 200. -/
lemma putCheck_error_status (isPrint : Nat → Bool) (env : PutEnv) (req : PutReq)
    (code : Nat) (msg : GoStr) (h : putCheck isPrint env req = .error (code, msg)) :
    code = 403 ∨ code = 405 ∨ code = 400 ∨ code = 500 := by
  simp only [putCheck] at h
  split_ifs at h <;>
    (repeat' first
      | (injection h with h2
         rw [Prod.mk.injEq] at h2
         omega)
      | cases h
      | split at h)

/-- Claim C7: `hasFilesWaiting` returns false whenever the root is unset, the
server is in direct mode, the negative-empty cache is set, or opening the
root fails, regardless of the directory contents; otherwise it returns true
exactly when the directory holds a regular entry whose name does not end in
`".partial"`. -/
theorem C7_hasFilesWaiting_cases (env : PutEnv) (openErr : Bool) (st : StoreState) :
    ((env.rootDir = [] ∨ env.directFileMode = true ∨ st.knownEmpty = true ∨ openErr = true) →
      (hasFilesWaiting env openErr st).1 = false) ∧
    (env.rootDir ≠ [] → env.directFileMode = false → st.knownEmpty = false → openErr = false →
      (hasFilesWaiting env openErr st).1 = st.dir.any waitingEntry) := by
  unfold hasFilesWaiting
  constructor
  · intro h
    split_ifs <;> simp_all
  · intro h1 h2 h3 h4
    split_ifs <;> simp_all

/-- Closed witness for Claim C7: a fast-path false (direct mode with a
waiting file on disk) and a scan that finds the file. -/
theorem C7_hasFilesWaiting_cases_witness :
    (hasFilesWaiting ⟨true, true, gs "r", true⟩ false ⟨[⟨gs "a", [], true⟩], false⟩).1 =
      false ∧
    (hasFilesWaiting ⟨true, true, gs "r", false⟩ false ⟨[⟨gs "a", [], true⟩], false⟩).1 =
      ([⟨gs "a", [], true⟩] : Dir).any waitingEntry := by
  refine ⟨?_, ?_⟩
  · exact (C7_hasFilesWaiting_cases ⟨true, true, gs "r", true⟩ false
      ⟨[⟨gs "a", [], true⟩], false⟩).1 (Or.inr (Or.inl rfl))
  · exact (C7_hasFilesWaiting_cases ⟨true, true, gs "r", false⟩ false
      ⟨[⟨gs "a", [], true⟩], false⟩).2 (by decide) rfl rfl rfl

/-- Counterexample to Claim C5 as stated: scanning a staging directory whose
only entry is the partial file `"x.partial"` flips the negative-empty cache
from false to true although the directory is not empty. -/
theorem C5_counterexample :
    (⟨[⟨gs "x.partial", [], true⟩], false⟩ : StoreState).knownEmpty = false ∧
    (hasFilesWaiting ⟨true, true, gs "r", false⟩ false
      ⟨[⟨gs "x.partial", [], true⟩], false⟩).2.knownEmpty = true ∧
    (⟨[⟨gs "x.partial", [], true⟩], false⟩ : StoreState).dir ≠ [] := by decide

/-- Claim C5 (amended): the negative-empty cache transitions to true only
when a scan observes no waiting file — a regular entry not ending in
`".partial"`; the directory may still hold partial or irregular entries —
the PUT handler never sets it, and every PUT that responds 200 clears it to
false. -/
theorem C5_knownEmpty_invariant (isPrint : Nat → Bool) (env : PutEnv) (openErr : Bool)
    (st : StoreState) (fl : PutFaults) (req : PutReq) :
    ((hasFilesWaiting env openErr st).2.knownEmpty = true →
      st.knownEmpty = true ∨ st.dir.all (fun e => ! waitingEntry e) = true) ∧
    ((handlePeerPut isPrint env fl req st).state.knownEmpty = true →
      st.knownEmpty = true) ∧
    ((handlePeerPut isPrint env fl req st).status = 200 →
      (handlePeerPut isPrint env fl req st).state.knownEmpty = false) := by
  refine ⟨?_, ?_, ?_⟩
  · unfold hasFilesWaiting
    split_ifs <;> simp_all
  · cases hchk : putCheck isPrint env req with
    | error e =>
      simp only [handlePeerPut, hchk]
      exact fun h => h
    | ok baseName =>
      simp only [handlePeerPut, hchk, putUpload]
      split_ifs <;> simp
  · cases hchk : putCheck isPrint env req with
    | error e =>
      simp only [handlePeerPut, hchk]
      intro h
      have := putCheck_error_status isPrint env req e.1 e.2 (by rw [hchk])
      omega
    | ok baseName =>
      simp only [handlePeerPut, hchk, putUpload]
      split_ifs <;> simp

/-- Closed witness for Claim C5: an observed-empty scan, and a successful
zero-length PUT clearing the cache. -/
theorem C5_knownEmpty_invariant_witness :
    ((⟨[], false⟩ : StoreState).knownEmpty = true ∨
      ([] : Dir).all (fun e => ! waitingEntry e) = true) ∧
    (handlePeerPut asciiPrint ⟨true, true, gs "r", false⟩ ⟨false, false⟩
        ⟨gs "PUT", gs "/v0/put/a", 0, [], false⟩ ⟨[], false⟩).state.knownEmpty = false := by
  refine ⟨?_, ?_⟩
  · exact (C5_knownEmpty_invariant asciiPrint ⟨true, true, gs "r", false⟩ false ⟨[], false⟩
      ⟨false, false⟩ ⟨gs "PUT", gs "/v0/put/a", 0, [], false⟩).1 (by decide)
  · exact (C5_knownEmpty_invariant asciiPrint ⟨true, true, gs "r", false⟩ false ⟨[], false⟩
      ⟨false, false⟩ ⟨gs "PUT", gs "/v0/put/a", 0, [], false⟩).2.2 (by decide)

/-- Claim C8: deleting a gate-accepted name that is absent from the staging
directory (root configured, non-direct mode) succeeds and leaves the whole
store state unchanged. -/
theorem C8_delete_missing (isPrint : Nat → Bool) (env : PutEnv) (st : StoreState) (n : GoStr)
    (hroot : env.rootDir ≠ []) (hdirect : env.directFileMode = false)
    (hgate : ∃ p, diskPath isPrint env.rootDir n = some p)
    (habs : lookupEntry st.dir n = none) :
    DeleteFile isPrint env st n = (.ok (), st) := by
  obtain ⟨p, hp⟩ := hgate
  rw [DeleteFile, if_neg hroot, if_neg (by simp [hdirect]), hp, habs]

/-- Closed witness for Claim C8 at a concrete absent name. -/
theorem C8_delete_missing_witness :
    DeleteFile asciiPrint ⟨true, true, gs "r", false⟩ ⟨[], false⟩ (gs "a") =
      (.ok (), ⟨[], false⟩) :=
  C8_delete_missing asciiPrint ⟨true, true, gs "r", false⟩ ⟨[], false⟩ (gs "a") (by decide)
    rfl ⟨gs "r/a", by decide⟩ rfl

/-- Claim C6: `handlePeerPut` rejects in source order — 403 "not owner" for a
non-`isSelf` peer before anything else (so a GET from a non-owner gets 403,
not 405), then 403 without the sharing capability, 405 for a non-PUT method,
500 without a staging root, 500 when the `/v0/put/` prefix is missing, 400
on an empty suffix, 400 when the still-escaped suffix contains `/`, 400 on a
percent-decode failure, and 400 when the filename gate rejects. -/
theorem C6_rejection_order (isPrint : Nat → Bool) (env : PutEnv) (fl : PutFaults)
    (req : PutReq) (st : StoreState) :
    (env.isSelf = false →
      handlePeerPut isPrint env fl req st = ⟨403, gs "not owner", st, []⟩) ∧
    (env.isSelf = true → env.capFileSharing = false →
      handlePeerPut isPrint env fl req st =
        ⟨403, gs "file sharing not enabled by Tailscale admin", st, []⟩) ∧
    (env.isSelf = true → env.capFileSharing = true → req.method ≠ gs "PUT" →
      handlePeerPut isPrint env fl req st = ⟨405, gs "expected method PUT", st, []⟩) ∧
    (env.isSelf = true → env.capFileSharing = true → req.method = gs "PUT" →
      env.rootDir = [] →
      handlePeerPut isPrint env fl req st = ⟨500, gs "no rootdir", st, []⟩) ∧
    (env.isSelf = true → env.capFileSharing = true → req.method = gs "PUT" →
      env.rootDir ≠ [] → trimPfx req.escapedPath (gs "/v0/put/") = req.escapedPath →
      handlePeerPut isPrint env fl req st = ⟨500, gs "misconfigured internals", st, []⟩) ∧
    (env.isSelf = true → env.capFileSharing = true → req.method = gs "PUT" →
      env.rootDir ≠ [] → trimPfx req.escapedPath (gs "/v0/put/") ≠ req.escapedPath →
      trimPfx req.escapedPath (gs "/v0/put/") = [] →
      handlePeerPut isPrint env fl req st = ⟨400, gs "empty filename", st, []⟩) ∧
    (env.isSelf = true → env.capFileSharing = true → req.method = gs "PUT" →
      env.rootDir ≠ [] → trimPfx req.escapedPath (gs "/v0/put/") ≠ req.escapedPath →
      trimPfx req.escapedPath (gs "/v0/put/") ≠ [] →
      (trimPfx req.escapedPath (gs "/v0/put/")).contains 47 = true →
      handlePeerPut isPrint env fl req st = ⟨400, gs "directories not supported", st, []⟩) ∧
    (env.isSelf = true → env.capFileSharing = true → req.method = gs "PUT" →
      env.rootDir ≠ [] → trimPfx req.escapedPath (gs "/v0/put/") ≠ req.escapedPath →
      trimPfx req.escapedPath (gs "/v0/put/") ≠ [] →
      (trimPfx req.escapedPath (gs "/v0/put/")).contains 47 = false →
      pathUnescape (trimPfx req.escapedPath (gs "/v0/put/")) = none →
      handlePeerPut isPrint env fl req st = ⟨400, gs "bad path encoding", st, []⟩) ∧
    (∀ baseName, env.isSelf = true → env.capFileSharing = true → req.method = gs "PUT" →
      env.rootDir ≠ [] → trimPfx req.escapedPath (gs "/v0/put/") ≠ req.escapedPath →
      trimPfx req.escapedPath (gs "/v0/put/") ≠ [] →
      (trimPfx req.escapedPath (gs "/v0/put/")).contains 47 = false →
      pathUnescape (trimPfx req.escapedPath (gs "/v0/put/")) = some baseName →
      diskPath isPrint env.rootDir baseName = none →
      handlePeerPut isPrint env fl req st = ⟨400, gs "bad filename", st, []⟩) := by
  refine ⟨?_, ?_, ?_, ?_, ?_, ?_, ?_, ?_, ?_⟩
  · intro h1
    have hchk : putCheck isPrint env req = .error (403, gs "not owner") := by
      simp only [putCheck]
      rw [if_pos (by simp [h1])]
    simp [handlePeerPut, hchk]
  · intro h1 h2
    have hchk : putCheck isPrint env req =
        .error (403, gs "file sharing not enabled by Tailscale admin") := by
      simp only [putCheck]
      rw [if_neg (by simp [h1]), if_pos (by simp [h2])]
    simp [handlePeerPut, hchk]
  · intro h1 h2 h3
    have hchk : putCheck isPrint env req = .error (405, gs "expected method PUT") := by
      simp only [putCheck]
      rw [if_neg (by simp [h1]), if_neg (by simp [h2]), if_pos h3]
    simp [handlePeerPut, hchk]
  · intro h1 h2 h3 h4
    have hchk : putCheck isPrint env req = .error (500, gs "no rootdir") := by
      simp only [putCheck]
      rw [if_neg (by simp [h1]), if_neg (by simp [h2]), if_neg (by simp [h3]), if_pos h4]
    simp [handlePeerPut, hchk]
  · intro h1 h2 h3 h4 h5
    have hchk : putCheck isPrint env req = .error (500, gs "misconfigured internals") := by
      simp only [putCheck]
      rw [if_neg (by simp [h1]), if_neg (by simp [h2]), if_neg (by simp [h3]), if_neg h4,
        if_pos h5]
    simp [handlePeerPut, hchk]
  · intro h1 h2 h3 h4 h5 h6
    have hchk : putCheck isPrint env req = .error (400, gs "empty filename") := by
      simp only [putCheck]
      rw [if_neg (by simp [h1]), if_neg (by simp [h2]), if_neg (by simp [h3]), if_neg h4,
        if_neg h5, if_pos h6]
    simp [handlePeerPut, hchk]
  · intro h1 h2 h3 h4 h5 h6 h7
    have hchk : putCheck isPrint env req = .error (400, gs "directories not supported") := by
      simp only [putCheck]
      rw [if_neg (by simp [h1]), if_neg (by simp [h2]), if_neg (by simp [h3]), if_neg h4,
        if_neg h5, if_neg h6, if_pos h7]
    simp [handlePeerPut, hchk]
  · intro h1 h2 h3 h4 h5 h6 h7 h8
    have hchk : putCheck isPrint env req = .error (400, gs "bad path encoding") := by
      simp only [putCheck]
      rw [if_neg (by simp [h1]), if_neg (by simp [h2]), if_neg (by simp [h3]), if_neg h4,
        if_neg h5, if_neg h6, if_neg (by simpa using h7)]
      simp only [h8]
    simp [handlePeerPut, hchk]
  · intro baseName h1 h2 h3 h4 h5 h6 h7 h8 h9
    have hchk : putCheck isPrint env req = .error (400, gs "bad filename") := by
      simp only [putCheck]
      rw [if_neg (by simp [h1]), if_neg (by simp [h2]), if_neg (by simp [h3]), if_neg h4,
        if_neg h5, if_neg h6, if_neg (by simpa using h7)]
      simp only [h8, h9]
    simp [handlePeerPut, hchk]

/-- Closed witness for Claim C6: a GET to `/v0/put/x` gets 403 from a
non-owner but 405 from the owner. -/
theorem C6_rejection_order_witness :
    handlePeerPut asciiPrint ⟨false, true, gs "r", false⟩ ⟨false, false⟩
      ⟨gs "GET", gs "/v0/put/x", 0, [], false⟩ ⟨[], false⟩ =
      ⟨403, gs "not owner", ⟨[], false⟩, []⟩ ∧
    handlePeerPut asciiPrint ⟨true, true, gs "r", false⟩ ⟨false, false⟩
      ⟨gs "GET", gs "/v0/put/x", 0, [], false⟩ ⟨[], false⟩ =
      ⟨405, gs "expected method PUT", ⟨[], false⟩, []⟩ := by
  constructor
  · exact (C6_rejection_order asciiPrint ⟨false, true, gs "r", false⟩ ⟨false, false⟩
      ⟨gs "GET", gs "/v0/put/x", 0, [], false⟩ ⟨[], false⟩).1 rfl
  · exact (C6_rejection_order asciiPrint ⟨true, true, gs "r", false⟩ ⟨false, false⟩
      ⟨gs "GET", gs "/v0/put/x", 0, [], false⟩ ⟨[], false⟩).2.2.1 rfl rfl (by decide)

/-- Claim C10: a fully validated `PUT` with `Content-Length` 0 and no
create/close fault registers no upload, copies nothing, publishes no
done-notification even in direct mode, and still truncate-creates the
destination, responds 200 with body `"\x7b\x7d\n"`, clears the
negative-empty cache, and fires exactly one `sendFileNotify`. -/
theorem C10_zero_length_put (isPrint : Nat → Bool) (env : PutEnv) (fl : PutFaults)
    (req : PutReq) (st : StoreState) (baseName : GoStr)
    (hchk : putCheck isPrint env req = .ok baseName)
    (hcl : req.contentLength = 0) (hcr : fl.createErr = false) (hcls : fl.closeErr = false) :
    handlePeerPut isPrint env fl req st =
      ⟨200, [123, 125, 10], ⟨createEntry st.dir (putDest env baseName), false⟩,
        [Ev.notifyFinal]⟩ := by
  simp [handlePeerPut, hchk, putUpload, hcr, hcl, hcls]

/-- Closed witness for Claim C10: a zero-length PUT in direct mode. -/
theorem C10_zero_length_put_witness :
    handlePeerPut asciiPrint ⟨true, true, gs "r", true⟩ ⟨false, false⟩
      ⟨gs "PUT", gs "/v0/put/a", 0, [], false⟩ ⟨[], false⟩ =
      ⟨200, [123, 125, 10],
        ⟨createEntry [] (putDest ⟨true, true, gs "r", true⟩ (gs "a")), false⟩,
        [Ev.notifyFinal]⟩ :=
  C10_zero_length_put asciiPrint ⟨true, true, gs "r", true⟩ ⟨false, false⟩
    ⟨gs "PUT", gs "/v0/put/a", 0, [], false⟩ ⟨[], false⟩ (gs "a") (by decide) rfl rfl rfl

/-- Counterexample to Claim C2 as stated: a `PUT` whose body read fails after
one delivered chunk responds 500 and leaves no file, but a (progress)
notification has already been sent during the copy, so "no notification is
sent" fails. -/
theorem C2_counterexample :
    (handlePeerPut asciiPrint ⟨true, true, gs "r", false⟩ ⟨false, false⟩
        ⟨gs "PUT", gs "/v0/put/a", 2, [([97], 5)], true⟩ ⟨[], false⟩).status = 500 ∧
    Ev.notifyProgress ∈ (handlePeerPut asciiPrint ⟨true, true, gs "r", false⟩ ⟨false, false⟩
        ⟨gs "PUT", gs "/v0/put/a", 2, [([97], 5)], true⟩ ⟨[], false⟩).events := by decide

/-- Claim C2 (amended): every `PUT` that fails with a create, body-read
(copy) or close error responds 500; on a copy or close error the destination
file — the `.partial` variant in direct mode — is removed, while a create
error leaves the filesystem untouched; no done- or final notification is
sent (progress notifications may already have fired during the copy); and
the negative-empty cache is not cleared. -/
theorem C2_failed_put (isPrint : Nat → Bool) (env : PutEnv) (fl : PutFaults) (req : PutReq)
    (st : StoreState) (baseName : GoStr)
    (hchk : putCheck isPrint env req = .ok baseName) :
    (fl.createErr = true →
      handlePeerPut isPrint env fl req st = ⟨500, gs "create error", st, []⟩) ∧
    (fl.createErr = false → req.contentLength ≠ 0 → req.readErr = true →
      (handlePeerPut isPrint env fl req st).status = 500 ∧
      lookupEntry (handlePeerPut isPrint env fl req st).state.dir (putDest env baseName) =
        none ∧
      (handlePeerPut isPrint env fl req st).state.knownEmpty = st.knownEmpty ∧
      Ev.notifyDone ∉ (handlePeerPut isPrint env fl req st).events ∧
      Ev.notifyFinal ∉ (handlePeerPut isPrint env fl req st).events) ∧
    (fl.createErr = false → (req.contentLength = 0 ∨ req.readErr = false) →
      fl.closeErr = true →
      (handlePeerPut isPrint env fl req st).status = 500 ∧
      lookupEntry (handlePeerPut isPrint env fl req st).state.dir (putDest env baseName) =
        none ∧
      (handlePeerPut isPrint env fl req st).state.knownEmpty = st.knownEmpty ∧
      Ev.notifyDone ∉ (handlePeerPut isPrint env fl req st).events ∧
      Ev.notifyFinal ∉ (handlePeerPut isPrint env fl req st).events) := by
  refine ⟨?_, ?_, ?_⟩
  · intro h1
    simp [handlePeerPut, hchk, putUpload, h1]
  · intro h1 h2 h3
    simp only [handlePeerPut, hchk, putUpload]
    rw [if_neg (by simp [h1]), if_pos h2, if_pos h3]
    refine ⟨rfl, lookupEntry_removeEntry _ _, rfl, ?_, ?_⟩ <;>
      (intro hmem
       simp only [List.cons_append, List.mem_cons, List.mem_append, List.mem_singleton]
         at hmem
       rcases hmem with h | h | h | h
       · cases h
       · exact absurd (copyBody_events _ _ _ h) (by decide)
       · cases h
       · cases h)
  · intro h1 h2 h3
    simp only [handlePeerPut, hchk, putUpload]
    rw [if_neg (by simp [h1])]
    rcases h2 with h2 | h2
    · rw [if_neg (by simp [h2]), if_pos h3]
      exact ⟨rfl, lookupEntry_removeEntry _ _, rfl, by simp, by simp⟩
    · by_cases hcl : req.contentLength = 0
      · rw [if_neg (by simp [hcl]), if_pos h3]
        exact ⟨rfl, lookupEntry_removeEntry _ _, rfl, by simp, by simp⟩
      · rw [if_pos hcl, if_neg (by simp [h2]), if_pos h3]
        refine ⟨rfl, lookupEntry_removeEntry _ _, rfl, ?_, ?_⟩ <;>
          (intro hmem
           simp only [List.cons_append, List.mem_cons, List.mem_append, List.mem_singleton]
             at hmem
           rcases hmem with h | h | h | h
           · cases h
           · exact absurd (copyBody_events _ _ _ h) (by decide)
           · cases h
           · cases h)

/-- Closed witness for Claim C2 (amended) at a concrete failing copy. -/
theorem C2_failed_put_witness :
    (handlePeerPut asciiPrint ⟨true, true, gs "r", false⟩ ⟨false, false⟩
        ⟨gs "PUT", gs "/v0/put/b", 2, [([97], 5)], true⟩ ⟨[], false⟩).status = 500 ∧
    lookupEntry (handlePeerPut asciiPrint ⟨true, true, gs "r", false⟩ ⟨false, false⟩
        ⟨gs "PUT", gs "/v0/put/b", 2, [([97], 5)], true⟩ ⟨[], false⟩).state.dir
      (putDest ⟨true, true, gs "r", false⟩ (gs "b")) = none := by
  have h := (C2_failed_put asciiPrint ⟨true, true, gs "r", false⟩ ⟨false, false⟩
      ⟨gs "PUT", gs "/v0/put/b", 2, [([97], 5)], true⟩ ⟨[], false⟩ (gs "b") (by decide)).2.1
      rfl (by decide) rfl
  exact ⟨h.1, h.2.1⟩

/-- Stripping a literal prefix that is present. -/
lemma trimPfx_append (p s : GoStr) : trimPfx (p ++ s) p = s := by
  have hp : p.isPrefixOf (p ++ s) = true :=
    List.isPrefixOf_iff_prefix.mpr (List.prefix_append p s)
  rw [trimPfx, if_pos hp, List.drop_left]

/-- Claim C3: with a configured root, non-direct mode, an `isSelf` peer and
sharing enabled, a successful `PUT /v0/put/<suffix>` whose suffix decodes to
a gate-accepted name `n` and whose body is `b` responds 200, and a following
`OpenFile n` returns exactly the bytes `b` with size `|b|`. -/
theorem C3_put_roundtrip (isPrint : Nat → Bool) (env : PutEnv) (st : StoreState)
    (suffix n b : GoStr) (t : Nat)
    (hself : env.isSelf = true) (hcap : env.capFileSharing = true)
    (hroot : env.rootDir ≠ []) (hdirect : env.directFileMode = false)
    (hsuf : suffix ≠ []) (hslash : suffix.contains 47 = false)
    (hdec : pathUnescape suffix = some n)
    (hgate : ∃ p, diskPath isPrint env.rootDir n = some p) :
    (handlePeerPut isPrint env ⟨false, false⟩
        ⟨gs "PUT", gs "/v0/put/" ++ suffix, (b.length : Int), [(b, t)], false⟩ st).status =
      200 ∧
    OpenFile isPrint env
      (handlePeerPut isPrint env ⟨false, false⟩
        ⟨gs "PUT", gs "/v0/put/" ++ suffix, (b.length : Int), [(b, t)], false⟩ st).state n =
      .ok (b, b.length) := by
  obtain ⟨p, hp⟩ := hgate
  have htrim : trimPfx (gs "/v0/put/" ++ suffix) (gs "/v0/put/") = suffix :=
    trimPfx_append _ _
  have hne : suffix ≠ gs "/v0/put/" ++ suffix := by
    intro he
    have hlen := congrArg List.length he
    rw [List.length_append] at hlen
    have h8 : (gs "/v0/put/").length = 8 := by decide
    omega
  have hchk : putCheck isPrint env
      ⟨gs "PUT", gs "/v0/put/" ++ suffix, (b.length : Int), [(b, t)], false⟩ = .ok n := by
    simp only [putCheck]
    rw [if_neg (by simp [hself]), if_neg (by simp [hcap]), if_neg (by simp), if_neg hroot]
    rw [htrim, if_neg hne, if_neg hsuf, if_neg (by simpa using hslash)]
    simp [hdec, hp]
  simp only [handlePeerPut, hchk]
  have hdst : putDest env n = n := by simp [putDest, hdirect]
  by_cases hb : b = []
  · subst hb
    simp only [putUpload]
    rw [if_neg (by simp), if_neg (by simp), if_neg (by simp), hdst]
    refine ⟨rfl, ?_⟩
    rw [OpenFile, if_neg hroot, if_neg (by simp [hdirect])]
    simp [hp, lookupEntry_createEntry]
  · have hcontent : (copyBody ⟨[], 0, 0⟩ [(b, t)]).1.content = b := by
      rw [copyBody_content]
      simp
    simp only [putUpload]
    rw [if_neg (by simp), if_pos (by simpa using hb), if_neg (by simp), if_neg (by simp),
      hdst, hcontent]
    refine ⟨rfl, ?_⟩
    rw [OpenFile, if_neg hroot, if_neg (by simp [hdirect])]
    simp [hp, lookupEntry_create_set]

/-- Closed witness for Claim C3: uploading `"hi"` as `hi.txt` and reading it
back. -/
theorem C3_put_roundtrip_witness :
    (handlePeerPut asciiPrint ⟨true, true, gs "r", false⟩ ⟨false, false⟩
        ⟨gs "PUT", gs "/v0/put/" ++ gs "hi.txt", ((gs "hi").length : Int),
          [(gs "hi", 7)], false⟩ ⟨[], false⟩).status = 200 ∧
    OpenFile asciiPrint ⟨true, true, gs "r", false⟩
      (handlePeerPut asciiPrint ⟨true, true, gs "r", false⟩ ⟨false, false⟩
        ⟨gs "PUT", gs "/v0/put/" ++ gs "hi.txt", ((gs "hi").length : Int),
          [(gs "hi", 7)], false⟩ ⟨[], false⟩).state (gs "hi.txt") =
      .ok (gs "hi", (gs "hi").length) :=
  C3_put_roundtrip asciiPrint ⟨true, true, gs "r", false⟩ ⟨[], false⟩ (gs "hi.txt")
    (gs "hi.txt") (gs "hi") 7 rfl rfl (by decide) rfl (by decide) (by decide) (by decide)
    ⟨gs "r/hi.txt", by decide⟩
